import Mathlib

/-!
Verification development for the FieldOrders repository.

We give a shallow embedding, over the rationals, of the three core
components: the volatility scanner (src/scanner.py), the field order
manager (src/orders.py) and the market simulator (src/simulation.py),
and prove the behavioural properties claimed of them.

Modelling conventions, used throughout:
* Python floats are modelled as rationals; properties stated in the
  source "up to float epsilon" become exact equalities over the rationals.
  IEEE special values (inf, NaN) are outside the model; the one place the
  source can produce them (a candle with low = 0) is excluded by the
  hypotheses of the corresponding theorem.
* Python dictionaries are modelled as association lists with the update
  semantics of dicts: updating an existing key keeps its position,
  inserting a new key appends it (dicts preserve insertion order).
* Wall-clock timestamp fields (timestamp, last_update, last_checked) are
  omitted: real time is not modelled and no verified property mentions
  them.  Random draws made by the simulator are passed in as explicit
  function arguments instead of reading a generator.
* Code that can raise is modelled with Option: a caught exception or an
  empty-dict result becomes none.
-/

/-! ### Association lists (Python dict model) -/

/-- Dictionary lookup: first binding of the key, none when absent
(Python `d.get(k)` / `k in d`). -/
def alistGet {κ α : Type} [DecidableEq κ] : List (κ × α) → κ → Option α
  | [], _ => none
  | p :: rest, k => if p.1 = k then some p.2 else alistGet rest k

/-- Dictionary write `d[k] = v`: an existing key keeps its position, a
new key is appended (Python dicts preserve insertion order). -/
def alistSet {κ α : Type} [DecidableEq κ] : List (κ × α) → κ → α → List (κ × α)
  | [], k, v => [(k, v)]
  | p :: rest, k, v => if p.1 = k then (k, v) :: rest else p :: alistSet rest k v

theorem alistGet_set {κ α : Type} [DecidableEq κ] (l : List (κ × α)) (k k2 : κ) (v : α) :
    alistGet (alistSet l k v) k2 = if k = k2 then some v else alistGet l k2 := by
  induction l with
  | nil => simp [alistGet, alistSet]
  | cons p rest ih =>
    by_cases h1 : p.1 = k
    · by_cases h2 : k = k2 <;> simp [alistGet, alistSet, h1, h2]
    · by_cases h2 : p.1 = k2
      · have h3 : ¬ k2 = k := fun h => h1 (h2.trans h)
        have h4 : ¬ k = k2 := fun h => h3 h.symm
        simp [alistGet, alistSet, h1, h2, h3, h4]
      · simp [alistGet, alistSet, h1, h2, ih]

theorem alistGet_map_value {κ α : Type} [DecidableEq κ] (f : α → α) :
    ∀ (l : List (κ × α)) (k : κ),
      alistGet (l.map (fun p => (p.1, f p.2))) k = (alistGet l k).map f
  | [], _ => rfl
  | p :: rest, k => by
    by_cases h : p.1 = k <;> simp [alistGet, h, alistGet_map_value f rest k]

/-! ### Volatility scanner (src/scanner.py)

The scanner consumes an exchange-gateway object through three calls:
`get_markets`, `get_ohlcv` and `get_ticker`.  Both concrete gateways in
the repository (src/exchange/connector.py and src/simulation.py) catch
their own errors and return an empty list / empty dict, so the gateway is
modelled as total functions where an empty list (for candles) or a
record of missing fields (for the ticker) encodes a failed fetch. -/

/-- One OHLCV candle row, in column order
[timestamp, open, high, low, close, volume]. -/
structure Candle where
  timestamp : ℚ
  opn : ℚ
  high : ℚ
  low : ℚ
  close : ℚ
  volume : ℚ
deriving DecidableEq

/-- The raw list-of-numbers row for a candle, as returned by the gateway. -/
def rawOfCandle (c : Candle) : List ℚ :=
  [c.timestamp, c.opn, c.high, c.low, c.close, c.volume]

/-- Parse one raw OHLCV row; a row that does not have exactly the six
expected columns is malformed (pandas DataFrame construction with six
column names raises on it, caught by calculate_volatility). -/
def parseRow : List ℚ → Option Candle
  | [t, o, h, l, c, v] => some ⟨t, o, h, l, c, v⟩
  | _ => none

/-- Parse a whole OHLCV payload; any malformed row poisons the batch
(the DataFrame constructor raises before any row is used). -/
def parseCandles : List (List ℚ) → Option (List Candle)
  | [] => some []
  | r :: rs =>
    match parseRow r, parseCandles rs with
    | some c, some cs => some (c :: cs)
    | _, _ => none

/-- Ticker fields the scanner reads, each optional because it reads them
with dict .get defaults; a failed ticker fetch is the record with every
field missing (the empty dict both connectors return on error). -/
structure TickerResp where
  last : Option ℚ
  quoteVolume : Option ℚ
  timestamp : Option ℚ
deriving DecidableEq

/-- The all-fields-missing ticker: what a failed ticker fetch yields. -/
def failTicker : TickerResp := ⟨none, none, none⟩

/-- The gateway surface the scanner uses. -/
structure ScanGateway where
  getMarkets : List String
  getOhlcv : String → List (List ℚ)
  getTicker : String → TickerResp

/-- One scan result row, keys symbol / volatility / last_price / volume /
timestamp of the dict built in scan_market. -/
structure Candidate where
  symbol : String
  volatility : ℚ
  lastPrice : ℚ
  volume : ℚ
  timestamp : ℚ
deriving DecidableEq

/-- VolatilityScanner.calculate_volatility: 0 on empty data, 0 when the
DataFrame construction raises on malformed rows (caught), otherwise the
mean over the candles of (high - low) / low * 100. -/
def calculate_volatility (gw : ScanGateway) (symbol : String) : ℚ :=
  let ohlcv := gw.getOhlcv symbol
  if ohlcv.isEmpty then 0
  else
    match parseCandles ohlcv with
    | none => 0
    | some cs => ((cs.map (fun c => (c.high - c.low) / c.low * 100)).sum) / cs.length

/-- The accumulation loop of scan_market: per symbol, compute the score,
and when it passes the threshold fetch the ticker and build the result
row with .get defaults of 0 for the ticker fields. -/
def scanLoop (gw : ScanGateway) (minVolatility : ℚ) : List String → List Candidate
  | [] => []
  | sym :: rest =>
    let v := calculate_volatility gw sym
    if minVolatility ≤ v then
      let t := gw.getTicker sym
      ⟨sym, v, t.last.getD 0, t.quoteVolume.getD 0, t.timestamp.getD 0⟩
        :: scanLoop gw minVolatility rest
    else scanLoop gw minVolatility rest

/-- The key comparison used by the final `sorted(..., reverse=True)`:
a may come before b exactly when the volatility of b is at most that
of a. -/
def volGE (a b : Candidate) : Prop := b.volatility ≤ a.volatility

instance : DecidableRel volGE :=
  fun a b => inferInstanceAs (Decidable (b.volatility ≤ a.volatility))

instance : IsTotal Candidate volGE :=
  ⟨fun a b => (le_total b.volatility a.volatility).imp id id⟩

instance : IsTrans Candidate volGE :=
  ⟨fun _ _ _ hab hbc => le_trans hbc hab⟩

/-- Python `sorted(pairs, key=volatility, reverse=True)` is a stable sort
descending on the key; insertion sort with `volGE` computes exactly that
order (equal keys keep their input order). -/
def sortDesc (l : List Candidate) : List Candidate := List.insertionSort volGE l

/-- The symbol list actually scanned: the given one, or every market the
gateway lists when none is given (None or empty in the source). -/
def effectiveSymbols (gw : ScanGateway) (symbols : List String) : List String :=
  if symbols.isEmpty then gw.getMarkets else symbols

/-- VolatilityScanner.scan_market: score every symbol, keep those at or
above the threshold with their ticker data, sort by volatility
descending.  The surrounding try/except in the source is unreachable
here because every gateway call is total in the model. -/
def scan_market (gw : ScanGateway) (minVolatility : ℚ) (symbols : List String) :
    List Candidate :=
  sortDesc (scanLoop gw minVolatility (effectiveSymbols gw symbols))

/-! ### Market simulator (src/simulation.py)

The simulator keeps a symbol-to-price map and an order-id-to-record map.
Order ids are the consecutive integers handed out by next_order_id (the
source stringifies them; the bijection is dropped here).  Randomness and
wall-clock time enter only update_prices and are passed in as explicit
arguments. -/

/-- A simulated order record, the dict built by Simulator.place_order
(the wall-clock timestamp key is omitted, see the file header). -/
structure SimOrder where
  symbol : String
  side : String
  amount : ℚ
  price : ℚ
  status : String
  filled : ℚ
  remaining : ℚ
deriving DecidableEq

/-- Simulator state: tracked symbols, price map, order table and the
next order id (last_update is omitted with the rest of wall-clock time). -/
structure SimState where
  symbols : List String
  prices : List (String × ℚ)
  orders : List (Nat × SimOrder)
  nextOrderId : Nat
deriving DecidableEq

/-- `self.prices.get(symbol, 0)` as read by the matching rule. -/
def priceOf (s : SimState) (symbol : String) : ℚ :=
  (alistGet s.prices symbol).getD 0

/-- Simulator.place_order: create an open, unfilled record under a fresh
id and store it.  place_limit_buy and place_limit_sell are this with the
side fixed. -/
def simPlaceOrder (s : SimState) (symbol side : String) (amount price : ℚ) :
    (Nat × SimOrder) × SimState :=
  let oid := s.nextOrderId
  let o : SimOrder :=
    { symbol := symbol, side := side, amount := amount, price := price
      status := "open", filled := 0, remaining := amount }
  ((oid, o), { s with orders := alistSet s.orders oid o, nextOrderId := oid + 1 })

/-- The fully-filled version of an order (status closed, filled whole
amount, nothing remaining). -/
def fillOrder (o : SimOrder) : SimOrder :=
  { o with status := "closed", filled := o.amount, remaining := 0 }

/-- The matching rule of Simulator.update_orders: a buy fills when the
current price is at or below the order price, a sell when it is at or
above. -/
def orderMatches (s : SimState) (o : SimOrder) : Prop :=
  (o.side = "buy" ∧ priceOf s o.symbol ≤ o.price) ∨
    (o.side = "sell" ∧ o.price ≤ priceOf s o.symbol)

instance (s : SimState) (o : SimOrder) : Decidable (orderMatches s o) :=
  inferInstanceAs (Decidable (_ ∨ _))

/-- What update_orders does to one record: skip anything that is not
open, fill an open order that matches, leave the rest alone. -/
def stepOrder (s : SimState) (o : SimOrder) : SimOrder :=
  if o.status ≠ "open" then o
  else if orderMatches s o then fillOrder o else o

/-- Simulator.update_orders: apply the matching rule to every record
(the source iterates over the items and writes back in place; keys are
unchanged). -/
def simUpdateOrders (s : SimState) : SimState :=
  { s with orders := s.orders.map (fun p => (p.1, stepOrder s p.2)) }

/-- Simulator.get_order_status: plain lookup, none for the empty dict
returned on an unknown id.  It never runs the matching rule. -/
def simGetOrderStatus (s : SimState) (orderId : Nat) : Option SimOrder :=
  alistGet s.orders orderId

/-- Simulator.cancel_order: only an existing, still-open order is
cancelled (and returned); anything else yields the empty dict and leaves
the state alone. -/
def simCancelOrder (s : SimState) (orderId : Nat) : Option SimOrder × SimState :=
  match alistGet s.orders orderId with
  | some o =>
    if o.status = "open" then
      let o2 := { o with status := "canceled" }
      (some o2, { s with orders := alistSet s.orders orderId o2 })
    else (none, s)
  | none => (none, s)

/-- The price move update_prices applies to one symbol: the uniform draw
times elapsed-minutes factor arrives combined as `chg symbol` (percent),
and a fat-finger event, when drawn, multiplies by (1 - drop/100). -/
def applyPriceChange (chg : String → ℚ) (fat : String → Option ℚ)
    (symbol : String) (p : ℚ) : ℚ :=
  let p1 := p * (1 + chg symbol / 100)
  match fat symbol with
  | some drop => p1 * (1 - drop / 100)
  | none => p1

/-- Simulator.update_prices: walk the tracked symbols and move each price
that exists in the map; the order table is never touched.  The random
draws and elapsed time are explicit arguments (see the file header). -/
def simUpdatePrices (s : SimState) (chg : String → ℚ) (fat : String → Option ℚ) :
    SimState :=
  { s with
    prices := s.symbols.foldl
      (fun ps sym =>
        match alistGet ps sym with
        | some p => alistSet ps sym (applyPriceChange chg fat sym p)
        | none => ps)
      s.prices }

/-- Well-formedness the simulator maintains from its empty initial
table: every stored order id is below the next id to hand out, so fresh
ids never collide. -/
def SimWf (s : SimState) : Prop :=
  ∀ k o, alistGet s.orders k = some o → k < s.nextOrderId

/-! ### Field order manager (src/orders.py)

OrderManager talks to a duck-typed connector through place_limit_buy,
place_limit_sell, get_order_status and cancel_order.  The connector is
modelled as a structure of functions over an abstract gateway state `g`,
with `r` the placement-response type (the order dict a placement
returns); a failed call is none (the empty dict both connectors return
after catching their own errors).  get_order_status is a pure read in
both concrete connectors. -/

/-- The two fields of an order-status dict the manager reads, each
through dict .get (so each may be absent). -/
structure StatusResp where
  status : Option String
  filled : Option ℚ
deriving DecidableEq

/-- The connector surface OrderManager uses. -/
structure Gateway (g r : Type) where
  respId : r → Nat
  placeLimitBuy : String → ℚ → ℚ → g → Option r × g
  placeLimitSell : String → ℚ → ℚ → g → Option r × g
  getOrderStatus : Nat → String → g → Option StatusResp
  cancelOrder : Nat → String → g → Option StatusResp × g

/-- One entry of the manager order table (self.active_orders).  The two
record shapes the source builds (buy entries and sell entries) and the
keys later patched in by check_field_status / retract_field are merged
into one structure with optional fields; wall-clock keys are omitted. -/
structure MOrder where
  otype : String
  symbol : String
  amount : ℚ
  price : ℚ
  basePrice : Option ℚ
  buyPrice : Option ℚ
  profitPercentage : Option ℚ
  tier : Option Nat
  relatedBuy : Option Nat
  fieldType : String
  status : Option String
  filled : Option ℚ
deriving DecidableEq

/-- OrderManager state: configuration plus the order table.  In the
source buy_field_orders and sell_field_orders hold aliases of the very
dict objects stored in active_orders (every later mutation goes through
active_orders[id] in place), so they are modelled as the id sets of
those views; their content is always the restriction of activeOrders. -/
structure OrderManager where
  discountPercentage : ℚ
  profitTiers : List ℚ
  tierPercentages : List ℚ
  activeOrders : List (Nat × MOrder)
  buyFieldIds : List Nat
  sellFieldIds : List Nat

/-- OrderManager.place_buy_field: discount the base price, size the
order in base units, place the limit buy, and on success record it as a
buy-field entry.  When the discounted price is 0 the source raises
ZeroDivisionError computing the amount and the except branch returns the
empty dict before any connector call. -/
def place_buy_field {g r : Type} (gw : Gateway g r) (m : OrderManager) (st : g)
    (symbol : String) (basePrice positionSize : ℚ) :
    Option r × OrderManager × g :=
  let buyPrice := basePrice * (1 - m.discountPercentage / 100)
  if buyPrice = 0 then (none, m, st)
  else
    let amount := positionSize / buyPrice
    let res := gw.placeLimitBuy symbol amount buyPrice st
    match res.1 with
    | some resp =>
      let entry : MOrder :=
        { otype := "buy", symbol := symbol, amount := amount, price := buyPrice
          basePrice := some basePrice, buyPrice := none, profitPercentage := none
          tier := none, relatedBuy := none, fieldType := "buy"
          status := none, filled := none }
      (some resp,
        { m with
          activeOrders := alistSet m.activeOrders (gw.respId resp) entry
          buyFieldIds := m.buyFieldIds ++ [gw.respId resp] },
        res.2)
    | none => (none, m, res.2)

/-- The tier loop of OrderManager.deploy_sell_field: one placement per
(profit, percentage) pair of the zipped config lists, in list order; a
failed placement is skipped and the remaining tiers are still tried;
each success is recorded as a sell-field entry and collected. -/
def deploySellLoop {g r : Type} (gw : Gateway g r) (symbol : String) (buyOrderId : Nat)
    (buyPrice totalAmount : ℚ) :
    List (ℚ × ℚ) → Nat → OrderManager → g → List r × OrderManager × g
  | [], _, m, st => ([], m, st)
  | pw :: rest, i, m, st =>
    let sellPrice := buyPrice * (1 + pw.1 / 100)
    let sellAmount := totalAmount * pw.2
    let res := gw.placeLimitSell symbol sellAmount sellPrice st
    match res.1 with
    | some resp =>
      let entry : MOrder :=
        { otype := "sell", symbol := symbol, amount := sellAmount, price := sellPrice
          basePrice := none, buyPrice := some buyPrice
          profitPercentage := some pw.1, tier := some (i + 1)
          relatedBuy := some buyOrderId, fieldType := "sell"
          status := none, filled := none }
      let m2 : OrderManager :=
        { m with
          activeOrders := alistSet m.activeOrders (gw.respId resp) entry
          sellFieldIds := m.sellFieldIds ++ [gw.respId resp] }
      let out := deploySellLoop gw symbol buyOrderId buyPrice totalAmount rest (i + 1) m2 res.2
      (resp :: out.1, out.2)
    | none => deploySellLoop gw symbol buyOrderId buyPrice totalAmount rest (i + 1) m res.2

/-- OrderManager.deploy_sell_field: unknown buy id yields the empty
list; otherwise the buy order status is re-fetched from the connector
and unless it reports closed the call returns empty having placed
nothing; only then is the tier loop run, priced from the recorded buy
price and sized from the recorded buy amount. -/
def deploy_sell_field {g r : Type} (gw : Gateway g r) (m : OrderManager) (st : g)
    (buyOrderId : Nat) : List r × OrderManager × g :=
  match alistGet m.activeOrders buyOrderId with
  | none => ([], m, st)
  | some buyOrder =>
    match gw.getOrderStatus buyOrderId buyOrder.symbol st with
    | none => ([], m, st)
    | some resp =>
      if resp.status = some "closed" then
        deploySellLoop gw buyOrder.symbol buyOrderId buyOrder.price buyOrder.amount
          (m.profitTiers.zip m.tierPercentages) 0 m st
      else ([], m, st)

/-- OrderManager.check_field_status: unknown id yields the empty dict;
otherwise the connector status is returned and, when truthy, the local
record gets status (default unknown) and filled (default 0) patched in. -/
def check_field_status {g r : Type} (gw : Gateway g r) (m : OrderManager) (st : g)
    (orderId : Nat) : Option StatusResp × OrderManager :=
  match alistGet m.activeOrders orderId with
  | none => (none, m)
  | some o =>
    match gw.getOrderStatus orderId o.symbol st with
    | none => (none, m)
    | some resp =>
      (some resp,
        { m with
          activeOrders := alistSet m.activeOrders orderId
            { o with status := some (resp.status.getD "unknown")
                     filled := some (resp.filled.getD 0) } })

/-- OrderManager.retract_field: unknown id yields the empty dict;
otherwise the connector cancel result is returned and, when truthy, the
record status becomes canceled and the id leaves its field view. -/
def retract_field {g r : Type} (gw : Gateway g r) (m : OrderManager) (st : g)
    (orderId : Nat) : Option StatusResp × OrderManager × g :=
  match alistGet m.activeOrders orderId with
  | none => (none, m, st)
  | some o =>
    let res := gw.cancelOrder orderId o.symbol st
    match res.1 with
    | some cr =>
      let m2 : OrderManager :=
        { m with
          activeOrders := alistSet m.activeOrders orderId
            { o with status := some "canceled" } }
      let m3 : OrderManager :=
        if o.fieldType = "buy" then
          { m2 with buyFieldIds := m2.buyFieldIds.erase orderId }
        else if o.fieldType = "sell" then
          { m2 with sellFieldIds := m2.sellFieldIds.erase orderId }
        else m2
      (some cr, m3, res.2)
    | none => (none, m, res.2)

/-- The status dict of a simulated order, as the manager reads it. -/
def toStatusResp (o : SimOrder) : StatusResp :=
  { status := some o.status, filled := some o.filled }

/-- The simulator plugged in as the manager connector (the --simulate
wiring in src/main.py). -/
def simGateway : Gateway SimState (Nat × SimOrder) where
  respId := fun resp => resp.1
  placeLimitBuy := fun sym amt pr s =>
    let res := simPlaceOrder s sym "buy" amt pr
    (some res.1, res.2)
  placeLimitSell := fun sym amt pr s =>
    let res := simPlaceOrder s sym "sell" amt pr
    (some res.1, res.2)
  getOrderStatus := fun oid _ s => (simGetOrderStatus s oid).map toStatusResp
  cancelOrder := fun oid _ s =>
    let res := simCancelOrder s oid
    (res.1.map toStatusResp, res.2)

/-- What an oracle-gateway placement echoes back: the assigned id and
the request, as both concrete connectors return the full order dict of
the placement. -/
structure OResp where
  oid : Nat
  symbol : String
  amount : ℚ
  price : ℚ
deriving DecidableEq

/-- Oracle gateway state: how many placements have been attempted. -/
structure OracleSt where
  nCalls : Nat
deriving DecidableEq

/-- A venue model that accepts or rejects each placement attempt by an
arbitrary predicate on the attempt number and echoes accepted requests;
order statuses are an arbitrary table.  Quantifying over `accept`
covers every pattern of venue-side placement rejections. -/
def oracleGateway (accept : Nat → Bool) (statusOf : Nat → Option StatusResp) :
    Gateway OracleSt OResp where
  respId := fun resp => resp.oid
  placeLimitBuy := fun sym amt pr s =>
    (if accept s.nCalls then some ⟨s.nCalls, sym, amt, pr⟩ else none, ⟨s.nCalls + 1⟩)
  placeLimitSell := fun sym amt pr s =>
    (if accept s.nCalls then some ⟨s.nCalls, sym, amt, pr⟩ else none, ⟨s.nCalls + 1⟩)
  getOrderStatus := fun oid _ _ => statusOf oid
  cancelOrder := fun _ _ s => (none, s)

/-! ### Concrete fixtures used by witnesses -/

/-- An OrderManager with the default configuration of the source
constructor and an empty table. -/
def emptyManager : OrderManager :=
  { discountPercentage := 15, profitTiers := [5, 10, 15]
    tierPercentages := [0.5, 0.3, 0.2]
    activeOrders := [], buyFieldIds := [], sellFieldIds := [] }

/-- A simulator with no symbols and the initial next order id. -/
def emptySimState : SimState :=
  { symbols := [], prices := [], orders := [], nextOrderId := 1000 }

/-- A recorded entry (buy) order at price 100 for 10 units. -/
def exBuyEntry : MOrder :=
  { otype := "buy", symbol := "BTC/USDT", amount := 10, price := 100
    basePrice := some 110, buyPrice := none, profitPercentage := none
    tier := none, relatedBuy := none, fieldType := "buy"
    status := none, filled := none }

/-- A manager whose table holds `exBuyEntry` under id 5. -/
def exManager : OrderManager :=
  { emptyManager with activeOrders := [(5, exBuyEntry)], buyFieldIds := [5] }

/-- The simulated side of `exBuyEntry`, still resting. -/
def exOpenSimOrder : SimOrder :=
  { symbol := "BTC/USDT", side := "buy", amount := 10, price := 100
    status := "open", filled := 0, remaining := 10 }

/-- The simulated side of `exBuyEntry`, fully filled. -/
def exClosedSimOrder : SimOrder :=
  { exOpenSimOrder with status := "closed", filled := 10, remaining := 0 }

/-- A simulator holding `exOpenSimOrder` under id 5, price above the limit. -/
def exOpenSim : SimState :=
  { symbols := ["BTC/USDT"], prices := [("BTC/USDT", 120)]
    orders := [(5, exOpenSimOrder)], nextOrderId := 1000 }

/-- A simulator holding `exClosedSimOrder` under id 5. -/
def exClosedSim : SimState :=
  { exOpenSim with orders := [(5, exClosedSimOrder)] }

/-! ### C9: operations on an unknown order id are no-ops -/

/-- C9: for an order id absent from the manager table, deploy_sell_field
returns the empty list, check_field_status and retract_field return the
empty dict, no connector call is made (the gateway state is returned
untouched) and the manager state is unchanged. -/
theorem unknown_order_id_is_noop {g r : Type} (gw : Gateway g r) (m : OrderManager)
    (st : g) (orderId : Nat) (h : alistGet m.activeOrders orderId = none) :
    deploy_sell_field gw m st orderId = ([], m, st) ∧
    check_field_status gw m st orderId = (none, m) ∧
    retract_field gw m st orderId = (none, m, st) := by
  refine ⟨?_, ?_, ?_⟩ <;>
    simp [deploy_sell_field, check_field_status, retract_field, h]

theorem unknown_order_id_is_noop_witness :
    deploy_sell_field simGateway emptyManager emptySimState 1
        = ([], emptyManager, emptySimState) ∧
    check_field_status simGateway emptyManager emptySimState 1 = (none, emptyManager) ∧
    retract_field simGateway emptyManager emptySimState 1
        = (none, emptyManager, emptySimState) :=
  unknown_order_id_is_noop simGateway emptyManager emptySimState 1 rfl

/-! ### C3: no exit order is ever placed against an unfilled entry -/

/-- C3: when the connector does not report the entry order as closed
(missing status dict, or any status other than closed), deploy_sell_field
returns the empty list, places nothing (the gateway state is returned
untouched) and leaves the manager table unchanged. -/
theorem deploy_sell_field_unfilled_entry {g r : Type} (gw : Gateway g r)
    (m : OrderManager) (st : g) (buyOrderId : Nat) (bo : MOrder)
    (hbo : alistGet m.activeOrders buyOrderId = some bo)
    (hst : ∀ resp, gw.getOrderStatus buyOrderId bo.symbol st = some resp →
      resp.status ≠ some "closed") :
    deploy_sell_field gw m st buyOrderId = ([], m, st) := by
  cases h : gw.getOrderStatus buyOrderId bo.symbol st with
  | none => simp [deploy_sell_field, hbo, h]
  | some resp => simp [deploy_sell_field, hbo, h, hst resp h]

theorem deploy_sell_field_unfilled_entry_witness :
    deploy_sell_field simGateway exManager exOpenSim 5 = ([], exManager, exOpenSim) := by
  refine deploy_sell_field_unfilled_entry simGateway exManager exOpenSim 5 exBuyEntry rfl ?_
  intro resp h
  have hr : resp = toStatusResp exOpenSimOrder := by
    simpa [simGateway, simGetOrderStatus, exOpenSim, alistGet] using h.symm
  subst hr
  decide

/-! ### C8: retracting a terminal order is a failing no-op -/

/-- C8: for an order recorded in the manager table whose simulated order
is terminal (closed, i.e. filled, or canceled), retract_field returns
the empty dict and leaves both the manager table (in particular the
recorded status) and the simulator state unchanged. -/
theorem retract_field_terminal (m : OrderManager) (s : SimState) (orderId : Nat)
    (mo : MOrder) (so : SimOrder)
    (hm : alistGet m.activeOrders orderId = some mo)
    (hs : alistGet s.orders orderId = some so)
    (hterm : so.status = "closed" ∨ so.status = "canceled") :
    retract_field simGateway m s orderId = (none, m, s) := by
  have hne : ¬ so.status = "open" := by
    rcases hterm with h | h <;> rw [h] <;> decide
  simp [retract_field, hm, simGateway, simCancelOrder, hs, hne]

theorem retract_field_terminal_witness :
    retract_field simGateway exManager exClosedSim 5 = (none, exManager, exClosedSim) :=
  retract_field_terminal exManager exClosedSim 5 exBuyEntry exClosedSimOrder
    rfl rfl (Or.inl rfl)

/-! ### C1: place_buy_field prices, sizing and initial status -/

/-- C1: for positive reference price and position value (and a discount
other than the degenerate 100 percent, where the source raises computing
the amount and returns the empty dict), place_buy_field against the
simulator requests a limit buy at reference_price * (1 - discount/100)
sized position_value divided by that price; the created order is resting
and unfilled (status open, filled 0, remaining the full amount), is what
the simulator status query returns, and is recorded in the manager table
as a buy-field entry. -/
theorem place_buy_field_spec (m : OrderManager) (s : SimState) (symbol : String)
    (basePrice positionSize : ℚ) (hbp : 0 < basePrice) (_hps : 0 < positionSize)
    (hd : m.discountPercentage ≠ 100) :
    ∃ oid ord,
      (place_buy_field simGateway m s symbol basePrice positionSize).1
          = some (oid, ord) ∧
      ord.price = basePrice * (1 - m.discountPercentage / 100) ∧
      ord.amount = positionSize / (basePrice * (1 - m.discountPercentage / 100)) ∧
      ord.side = "buy" ∧ ord.status = "open" ∧ ord.filled = 0 ∧
      ord.remaining = ord.amount ∧
      simGetOrderStatus
          (place_buy_field simGateway m s symbol basePrice positionSize).2.2 oid
        = some ord ∧
      alistGet
          (place_buy_field simGateway m s symbol basePrice positionSize).2.1.activeOrders
          oid
        = some { otype := "buy", symbol := symbol, amount := ord.amount
                 price := ord.price, basePrice := some basePrice, buyPrice := none
                 profitPercentage := none, tier := none, relatedBuy := none
                 fieldType := "buy", status := none, filled := none } ∧
      oid ∈ (place_buy_field simGateway m s symbol basePrice positionSize).2.1.buyFieldIds := by
  have hfac : (1 : ℚ) - m.discountPercentage / 100 ≠ 0 := by
    intro h0
    apply hd
    have h1 : m.discountPercentage / 100 = 1 := by linarith
    have h2 : m.discountPercentage = 100 := by
      field_simp at h1
      linarith
    exact h2
  have hbuy : basePrice * (1 - m.discountPercentage / 100) ≠ 0 :=
    mul_ne_zero (ne_of_gt hbp) hfac
  refine ⟨s.nextOrderId,
    { symbol := symbol, side := "buy"
      amount := positionSize / (basePrice * (1 - m.discountPercentage / 100))
      price := basePrice * (1 - m.discountPercentage / 100)
      status := "open", filled := 0
      remaining := positionSize / (basePrice * (1 - m.discountPercentage / 100)) },
    ?_, rfl, rfl, rfl, rfl, rfl, rfl, ?_, ?_, ?_⟩ <;>
    simp [place_buy_field, hbuy, simGateway, simPlaceOrder, simGetOrderStatus, alistGet_set]

theorem place_buy_field_spec_witness :
    ∃ oid ord,
      (place_buy_field simGateway emptyManager emptySimState "BTC/USDT" 100 50).1
          = some (oid, ord) ∧
      ord.price = 85 ∧ ord.amount = 50 / 85 ∧ ord.status = "open" ∧ ord.filled = 0 := by
  obtain ⟨oid, ord, h1, h2, h3, _, h5, h6, _⟩ :=
    place_buy_field_spec emptyManager emptySimState "BTC/USDT" 100 50
      (by norm_num) (by norm_num) (by decide)
  refine ⟨oid, ord, h1, ?_, ?_, h5, h6⟩
  · rw [h2, show emptyManager.discountPercentage = 15 from rfl]
    norm_num
  · rw [h3, show emptyManager.discountPercentage = 15 from rfl]
    norm_num

/-! ### C10: closed and canceled are terminal in the simulator -/

/-- C10: once a simulated order is not open, no simulator operation
changes its record again: update_orders skips it, cancel_order on it
returns the empty dict and leaves the whole state unchanged,
update_prices never touches the order table, and placing a new order
(which under the id-freshness invariant gets an unused id) leaves the
record in place.  get_order_status is a pure read by definition. -/
theorem sim_terminal_orders_frozen (s : SimState) (orderId : Nat) (o : SimOrder)
    (h : alistGet s.orders orderId = some o) (hterm : o.status ≠ "open") :
    alistGet (simUpdateOrders s).orders orderId = some o ∧
    simCancelOrder s orderId = (none, s) ∧
    (∀ chg fat, (simUpdatePrices s chg fat).orders = s.orders) ∧
    (∀ symbol side amount price, SimWf s →
      alistGet (simPlaceOrder s symbol side amount price).2.orders orderId = some o) := by
  refine ⟨?_, ?_, fun chg fat => rfl, ?_⟩
  · show alistGet (s.orders.map fun p => (p.1, stepOrder s p.2)) orderId = some o
    rw [alistGet_map_value (stepOrder s) s.orders orderId, h]
    simp [stepOrder, hterm]
  · simp [simCancelOrder, h, hterm]
  · intro symbol side amount price hwf
    have hlt := hwf orderId o h
    have hne : s.nextOrderId ≠ orderId := fun he => absurd (he ▸ hlt) (lt_irrefl _)
    simp [simPlaceOrder, alistGet_set, hne, h]

theorem sim_terminal_orders_frozen_witness :
    alistGet (simUpdateOrders exClosedSim).orders 5 = some exClosedSimOrder ∧
    simCancelOrder exClosedSim 5 = (none, exClosedSim) ∧
    (∀ chg fat, (simUpdatePrices exClosedSim chg fat).orders = exClosedSim.orders) ∧
    (∀ symbol side amount price, SimWf exClosedSim →
      alistGet (simPlaceOrder exClosedSim symbol side amount price).2.orders 5
        = some exClosedSimOrder) :=
  sim_terminal_orders_frozen exClosedSim 5 exClosedSimOrder rfl (by decide)

/-! ### C7: when the simulator evaluates its matching rule -/

/-- A state with one open buy at limit 10 while the price sits at 5:
a crossed, still-open order. -/
def cexSimState : SimState :=
  { symbols := ["S"], prices := [("S", 5)]
    orders := [(1000, { symbol := "S", side := "buy", amount := 2, price := 10
                        status := "open", filled := 0, remaining := 2 })]
    nextOrderId := 1001 }

/-- C7 counterexample: the claim says the matching rule runs on every
status check, so this crossed open buy (current price 5, limit 10) would
have to be reported closed/filled; get_order_status in fact still
reports it open with nothing filled, because neither get_order_status
nor update_prices runs the matching rule — only update_orders does. -/
theorem sim_status_check_runs_no_matching :
    priceOf cexSimState "S" ≤ 10 ∧
    simGetOrderStatus cexSimState 1000
      = some { symbol := "S", side := "buy", amount := 2, price := 10
               status := "open", filled := 0, remaining := 2 } ∧
    ¬ (simGetOrderStatus cexSimState 1000).map SimOrder.status = some "closed" := by
  decide

/-- C7 amended: the matching rule is evaluated by update_orders; after
update_orders, every resting (open) order that has crossed — a buy whose
limit is at least the current price, or a sell whose limit is at most
the current price — is reported by get_order_status as fully filled:
status closed, filled the whole amount, remaining 0. -/
theorem update_orders_fills_crossed (s : SimState) (orderId : Nat) (o : SimOrder)
    (h : alistGet s.orders orderId = some o) (hopen : o.status = "open")
    (hmatch : (o.side = "buy" ∧ priceOf s o.symbol ≤ o.price) ∨
      (o.side = "sell" ∧ o.price ≤ priceOf s o.symbol)) :
    simGetOrderStatus (simUpdateOrders s) orderId
      = some { o with status := "closed", filled := o.amount, remaining := 0 } := by
  show alistGet (s.orders.map fun p => (p.1, stepOrder s p.2)) orderId = _
  rw [alistGet_map_value (stepOrder s) s.orders orderId, h]
  simp [stepOrder, hopen, orderMatches, fillOrder, hmatch]

theorem update_orders_fills_crossed_witness :
    simGetOrderStatus (simUpdateOrders cexSimState) 1000
      = some { symbol := "S", side := "buy", amount := 2, price := 10
               status := "closed", filled := 2, remaining := 0 } :=
  update_orders_fills_crossed cexSimState 1000
    { symbol := "S", side := "buy", amount := 2, price := 10
      status := "open", filled := 0, remaining := 2 }
    rfl rfl (Or.inl ⟨rfl, by decide⟩)

/-! ### C4: calculate_volatility is the mean candle range percentage -/

theorem parseCandles_raw : ∀ cs : List Candle, parseCandles (cs.map rawOfCandle) = some cs
  | [] => rfl
  | c :: cs => by
    simp [rawOfCandle, parseCandles, parseRow, parseCandles_raw cs]

/-- C4: on well-formed OHLCV data of N at least 1 candles with
high at least low and low positive, calculate_volatility returns the
arithmetic mean over the candles of (high - low) / low * 100, and on
empty data it returns 0.  (The hypotheses on high and low mirror the
claim; over the rationals the mean formula needs none of them.) -/
theorem calculate_volatility_spec (gw : ScanGateway) (symbol : String) :
    (∀ cs : List Candle, gw.getOhlcv symbol = cs.map rawOfCandle → 1 ≤ cs.length →
      (∀ c ∈ cs, 0 < c.low ∧ c.low ≤ c.high) →
      calculate_volatility gw symbol
        = ((cs.map (fun c => (c.high - c.low) / c.low * 100)).sum) / cs.length) ∧
    (gw.getOhlcv symbol = [] → calculate_volatility gw symbol = 0) := by
  constructor
  · intro cs hraw hlen _hx
    have hne : cs ≠ [] := by
      intro h0
      rw [h0] at hlen
      simp at hlen
    have hne2 : ¬ (gw.getOhlcv symbol).isEmpty = true := by
      rw [hraw]
      cases cs with
      | nil => exact absurd rfl hne
      | cons c cs => simp
    simp [calculate_volatility, hne2, hraw, parseCandles_raw cs]
    intro h0
    exact absurd h0 hne
  · intro h
    simp [calculate_volatility, h]

/-- Two candles, each with range 100 percent of its low. -/
def exScanGateway : ScanGateway :=
  { getMarkets := []
    getOhlcv := fun sym => if sym = "X" then [[0, 1, 2, 1, 1, 1], [0, 2, 4, 2, 3, 1]] else []
    getTicker := fun _ => failTicker }

theorem calculate_volatility_spec_witness :
    calculate_volatility exScanGateway "X" = 100 ∧
    calculate_volatility exScanGateway "Y" = 0 := by
  have h := calculate_volatility_spec exScanGateway "X"
  have h1 := h.1 [⟨0, 1, 2, 1, 1, 1⟩, ⟨0, 2, 4, 2, 3, 1⟩] (by decide) (by decide) (by decide)
  have h2 := (calculate_volatility_spec exScanGateway "Y").2 (by decide)
  refine ⟨?_, h2⟩
  rw [h1]
  norm_num

/-! ### C5 and C6: scan_market ordering and failure semantics -/

/-- Every candidate the scan loop keeps passed the threshold test. -/
theorem scanLoop_min_bound {gw : ScanGateway} {minVolatility : ℚ} :
    ∀ {syms : List String} {c : Candidate}, c ∈ scanLoop gw minVolatility syms →
      minVolatility ≤ c.volatility := by
  intro syms
  induction syms with
  | nil => intro c h; cases h
  | cons sym rest ih =>
    intro c h
    by_cases hv : minVolatility ≤ calculate_volatility gw sym
    · simp only [scanLoop, if_pos hv] at h
      cases h with
      | head => exact hv
      | tail _ h0 => exact ih h0
    · simp only [scanLoop, if_neg hv] at h
      exact ih h

/-- Stability of one ordered insertion: the candidates of any fixed
volatility keep their relative order, with the inserted one (the
earliest in the input of the surrounding sort) first when it has that
volatility, since every element it passes over is strictly more
volatile. -/
theorem filter_orderedInsert_vol (v : ℚ) (x : Candidate) :
    ∀ l : List Candidate,
      (List.orderedInsert volGE x l).filter (fun c => decide (c.volatility = v))
        = if x.volatility = v
          then x :: l.filter (fun c => decide (c.volatility = v))
          else l.filter (fun c => decide (c.volatility = v))
  | [] => by
    by_cases hx : x.volatility = v <;> simp [List.orderedInsert, hx]
  | y :: l => by
    by_cases hr : volGE x y
    · by_cases hx : x.volatility = v <;>
        simp [List.orderedInsert, hr, hx]
    · have hy : x.volatility < y.volatility := lt_of_not_le hr
      by_cases hx : x.volatility = v
      · have hyv : ¬ y.volatility = v := fun h0 => hy.ne' (h0.trans hx.symm)
        simp [List.orderedInsert, hr, hx, hyv, filter_orderedInsert_vol v x l]
      · by_cases hyv : y.volatility = v <;>
          simp [List.orderedInsert, hr, hx, hyv, filter_orderedInsert_vol v x l]

/-- Stability of the whole sort: filtering the sorted output at any
volatility value gives exactly the filtered input, in input order. -/
theorem filter_sortDesc (v : ℚ) :
    ∀ l : List Candidate,
      (sortDesc l).filter (fun c => decide (c.volatility = v))
        = l.filter (fun c => decide (c.volatility = v))
  | [] => rfl
  | x :: l => by
    have ih := filter_sortDesc v l
    show (List.orderedInsert volGE x (sortDesc l)).filter _ = _
    rw [filter_orderedInsert_vol v x (sortDesc l)]
    by_cases hx : x.volatility = v <;>
      simp [hx, ih]

/-- C5 amended: scan_market never returns a candidate below the
threshold, its output is sorted by volatility descending, and candidates
of equal volatility keep the order in which their symbols were scanned
(the stable sort of the source), which is the input order, not the
lexical order of the symbol names. -/
theorem scan_market_sorted_spec (gw : ScanGateway) (minVolatility : ℚ)
    (symbols : List String) :
    (∀ c ∈ scan_market gw minVolatility symbols, minVolatility ≤ c.volatility) ∧
    List.Sorted volGE (scan_market gw minVolatility symbols) ∧
    (∀ v : ℚ,
      (scan_market gw minVolatility symbols).filter (fun c => decide (c.volatility = v))
        = (scanLoop gw minVolatility (effectiveSymbols gw symbols)).filter
            (fun c => decide (c.volatility = v))) := by
  refine ⟨?_, ?_, ?_⟩
  · intro c hc
    have : c ∈ scanLoop gw minVolatility (effectiveSymbols gw symbols) :=
      (List.mem_insertionSort volGE).1 hc
    exact scanLoop_min_bound this
  · exact List.sorted_insertionSort volGE _
  · intro v
    exact filter_sortDesc v _

theorem scan_market_sorted_spec_witness :
    (∀ c ∈ scan_market exScanGateway 5 ["X", "Y"], (5 : ℚ) ≤ c.volatility) ∧
    List.Sorted volGE (scan_market exScanGateway 5 ["X", "Y"]) ∧
    (∀ v : ℚ,
      (scan_market exScanGateway 5 ["X", "Y"]).filter (fun c => decide (c.volatility = v))
        = (scanLoop exScanGateway 5 (effectiveSymbols exScanGateway ["X", "Y"])).filter
            (fun c => decide (c.volatility = v))) :=
  scan_market_sorted_spec exScanGateway 5 ["X", "Y"]

/-- Both symbols score 100; the ticker supplies constant data. -/
def cexTieGateway : ScanGateway :=
  { getMarkets := []
    getOhlcv := fun _ => [[0, 1, 2, 1, 1, 1]]
    getTicker := fun _ => { last := some 3, quoteVolume := some 4, timestamp := some 7 } }

/-- C5 counterexample: two symbols with the identical volatility score
100 are returned in input order BBB, AAA even though AAA precedes BBB
lexically — the final sorted(..., reverse=True) is stable, so ties are
broken by scan order, not by symbol name. -/
theorem scan_market_tie_not_lexical :
    (scan_market cexTieGateway 5 ["BBB", "AAA"]).map (fun c => c.symbol)
        = ["BBB", "AAA"] ∧
    (scan_market cexTieGateway 5 ["BBB", "AAA"]).map (fun c => c.volatility)
        = [100, 100] ∧
    "AAA" < "BBB" := by
  have hv : ∀ s, calculate_volatility cexTieGateway s = 100 := by
    intro s
    simp [calculate_volatility, cexTieGateway, parseCandles, parseRow]
    norm_num
  have hscan : scan_market cexTieGateway 5 ["BBB", "AAA"]
      = [⟨"BBB", 100, 3, 4, 7⟩, ⟨"AAA", 100, 3, 4, 7⟩] := by
    simp only [scan_market, effectiveSymbols, scanLoop, hv]
    norm_num [cexTieGateway, sortDesc, List.insertionSort, List.orderedInsert, volGE]
  rw [hscan]
  refine ⟨rfl, rfl, ?_⟩
  rw [String.lt_iff_toList_lt]
  decide

/-- A failed or malformed OHLCV fetch scores 0: the connector turns its
own errors into an empty list, and malformed rows make the DataFrame
constructor raise, which calculate_volatility catches. -/
theorem calculate_volatility_failed (gw : ScanGateway) (sym : String)
    (hbad : gw.getOhlcv sym = [] ∨ parseCandles (gw.getOhlcv sym) = none) :
    calculate_volatility gw sym = 0 := by
  rcases hbad with h | h
  · simp [calculate_volatility, h]
  · by_cases he : (gw.getOhlcv sym).isEmpty
    · simp [calculate_volatility, he]
    · simp [calculate_volatility, he, h]

/-- Removing a symbol whose OHLCV fetch fails changes nothing in the
scan loop, as long as the threshold is positive (the failed symbol
scores 0 and is filtered out). -/
theorem scanLoop_skip_failed (gw : ScanGateway) (minVolatility : ℚ) (sym : String)
    (hmin : 0 < minVolatility)
    (hbad : gw.getOhlcv sym = [] ∨ parseCandles (gw.getOhlcv sym) = none) :
    ∀ l1 l2 : List String,
      scanLoop gw minVolatility (l1 ++ sym :: l2) = scanLoop gw minVolatility (l1 ++ l2)
  | [], l2 => by
    have h0 := calculate_volatility_failed gw sym hbad
    have hng : ¬ minVolatility ≤ calculate_volatility gw sym := by
      rw [h0]
      exact not_le.mpr hmin
    simp [scanLoop, hng]
  | s1 :: l1, l2 => by
    by_cases hv : minVolatility ≤ calculate_volatility gw s1 <;>
      simp [scanLoop, hv, scanLoop_skip_failed gw minVolatility sym hmin hbad l1 l2]

/-- A symbol that passes the threshold but whose ticker fetch failed is
still collected by the scan loop, with last price, volume and timestamp
all defaulted to 0. -/
theorem scanLoop_mem_ticker_fail (gw : ScanGateway) (minVolatility : ℚ) (sym : String)
    (hvol : minVolatility ≤ calculate_volatility gw sym)
    (htick : gw.getTicker sym = failTicker) :
    ∀ syms : List String, sym ∈ syms →
      (⟨sym, calculate_volatility gw sym, 0, 0, 0⟩ : Candidate)
        ∈ scanLoop gw minVolatility syms
  | [], h => absurd h (List.not_mem_nil _)
  | s1 :: rest, h => by
    rcases List.mem_cons.mp h with rfl | h2
    · simp [scanLoop, hvol, htick, failTicker]
    · by_cases hv : minVolatility ≤ calculate_volatility gw s1
      · simp only [scanLoop, if_pos hv]
        exact List.mem_cons_of_mem _
          (scanLoop_mem_ticker_fail gw minVolatility sym hvol htick rest h2)
      · simp only [scanLoop, if_neg hv]
        exact scanLoop_mem_ticker_fail gw minVolatility sym hvol htick rest h2

/-- C6 amended: a failed or malformed OHLCV fetch gives the symbol
score 0, so with a positive threshold the symbol is skipped and the scan
of the remaining symbols is exactly what it would have been without it;
a failed ticker fetch however does not skip the symbol — when its score
passes the threshold it is returned with last price, volume and
timestamp defaulted to 0.  (scan_market itself is total: every error of
a gateway call is caught inside the connector or the scanner.) -/
theorem scan_failure_semantics (gw : ScanGateway) (minVolatility : ℚ) :
    (∀ (sym : String) (l1 l2 : List String), 0 < minVolatility →
      (gw.getOhlcv sym = [] ∨ parseCandles (gw.getOhlcv sym) = none) →
      l1 ++ l2 ≠ [] →
      scan_market gw minVolatility (l1 ++ sym :: l2)
        = scan_market gw minVolatility (l1 ++ l2)) ∧
    (∀ (sym : String) (symbols : List String), sym ∈ symbols →
      minVolatility ≤ calculate_volatility gw sym →
      gw.getTicker sym = failTicker →
      (⟨sym, calculate_volatility gw sym, 0, 0, 0⟩ : Candidate)
        ∈ scan_market gw minVolatility symbols) := by
  constructor
  · intro sym l1 l2 hmin hbad hne
    have he1 : effectiveSymbols gw (l1 ++ sym :: l2) = l1 ++ sym :: l2 := by
      simp [effectiveSymbols]
    have he2 : effectiveSymbols gw (l1 ++ l2) = l1 ++ l2 := by
      simp [effectiveSymbols, hne]
    rw [scan_market, scan_market, he1, he2,
      scanLoop_skip_failed gw minVolatility sym hmin hbad l1 l2]
  · intro sym symbols hmem hvol htick
    have hne : symbols ≠ [] := List.ne_nil_of_mem hmem
    have he : effectiveSymbols gw symbols = symbols := by
      simp [effectiveSymbols, hne]
    rw [scan_market, he]
    exact (List.mem_insertionSort volGE).2
      (scanLoop_mem_ticker_fail gw minVolatility sym hvol htick symbols hmem)

/-- One symbol with bad candle data, all tickers failing. -/
def exFailGateway : ScanGateway :=
  { getMarkets := []
    getOhlcv := fun sym => if sym = "BAD" then [] else [[0, 1, 2, 1, 1, 1]]
    getTicker := fun _ => failTicker }

theorem scan_failure_semantics_witness :
    scan_market exFailGateway 5 ["GOOD", "BAD"] = scan_market exFailGateway 5 ["GOOD"] ∧
    (⟨"GOOD", calculate_volatility exFailGateway "GOOD", 0, 0, 0⟩ : Candidate)
      ∈ scan_market exFailGateway 5 ["GOOD"] := by
  have h := scan_failure_semantics exFailGateway 5
  constructor
  · exact h.1 "BAD" ["GOOD"] [] (by norm_num) (Or.inl rfl) (by simp)
  · refine h.2 "GOOD" ["GOOD"] (by simp) ?_ rfl
    have hv : calculate_volatility exFailGateway "GOOD" = 100 := by
      simp [calculate_volatility, exFailGateway, parseCandles, parseRow]
      norm_num
    rw [hv]
    norm_num

/-- C6 counterexample: the AAA ticker fetch fails, yet scan_market does
not skip AAA — it returns the AAA candidate (score 100 from good
candles) with last price, volume and timestamp all 0, contradicting the
claim that a symbol whose ticker call fails is skipped. -/
theorem scan_ticker_failure_not_skipped :
    scan_market exFailGateway 5 ["AAA"]
      = [{ symbol := "AAA", volatility := 100, lastPrice := 0, volume := 0
           timestamp := 0 }] := by
  have hv : calculate_volatility exFailGateway "AAA" = 100 := by
    simp [calculate_volatility, exFailGateway, parseCandles, parseRow]
    norm_num
  simp only [scan_market, effectiveSymbols, scanLoop, hv]
  norm_num [exFailGateway, sortDesc, List.insertionSort, List.orderedInsert, failTicker]

/-! ### C2: deploy_sell_field tier pricing and the position cap -/

theorem simGateway_placeLimitSell (sym : String) (amt pr : ℚ) (s : SimState) :
    simGateway.placeLimitSell sym amt pr s
      = (some (simPlaceOrder s sym "sell" amt pr).1, (simPlaceOrder s sym "sell" amt pr).2) :=
  rfl

theorem oracleGateway_placeLimitSell (accept : Nat → Bool)
    (statusOf : Nat → Option StatusResp) (sym : String) (amt pr : ℚ) (st : OracleSt) :
    (oracleGateway accept statusOf).placeLimitSell sym amt pr st
      = (if accept st.nCalls then some ⟨st.nCalls, sym, amt, pr⟩ else none,
         ⟨st.nCalls + 1⟩) :=
  rfl

/-- Against the simulator every placement succeeds, and the tier loop
creates one sell per (profit, percentage) pair, in pair order, priced
buyPrice * (1 + profit/100) and sized totalAmount * percentage. -/
theorem deploySellLoop_sim_orders (symbol : String) (buyOrderId : Nat)
    (buyPrice totalAmount : ℚ) :
    ∀ (pairs : List (ℚ × ℚ)) (i : Nat) (m : OrderManager) (s : SimState),
      ((deploySellLoop simGateway symbol buyOrderId buyPrice totalAmount
          pairs i m s).1.map (fun resp => (resp.2.price, resp.2.amount)))
        = pairs.map (fun pw => (buyPrice * (1 + pw.1 / 100), totalAmount * pw.2))
  | [], _, _, _ => rfl
  | pw :: rest, i, m, s => by
    have ih := deploySellLoop_sim_orders symbol buyOrderId buyPrice totalAmount rest (i + 1)
    simp only [deploySellLoop, simGateway_placeLimitSell, simPlaceOrder, List.map_cons]
    rw [ih]

/-- Against a venue that accepts an arbitrary subset of the placement
attempts, the amounts of the successfully placed sells total at most
totalAmount times the sum of the percentages used. -/
theorem deploySellLoop_oracle_sum (accept : Nat → Bool)
    (statusOf : Nat → Option StatusResp) (symbol : String) (buyOrderId : Nat)
    (buyPrice totalAmount : ℚ) (hA : 0 ≤ totalAmount) :
    ∀ (pairs : List (ℚ × ℚ)), (∀ pw ∈ pairs, 0 ≤ pw.2) →
      ∀ (i : Nat) (m : OrderManager) (st : OracleSt),
      (((deploySellLoop (oracleGateway accept statusOf) symbol buyOrderId buyPrice
          totalAmount pairs i m st).1.map (fun resp => resp.amount)).sum)
        ≤ totalAmount * (pairs.map Prod.snd).sum
  | [], _, i, m, st => by simp [deploySellLoop]
  | pw :: rest, hw, i, m, st => by
    have hw1 : 0 ≤ pw.2 := hw pw (List.mem_cons_self pw rest)
    have hrest : ∀ pw2 ∈ rest, 0 ≤ pw2.2 := fun pw2 h => hw pw2 (List.mem_cons_of_mem pw h)
    have hterm : 0 ≤ totalAmount * pw.2 := mul_nonneg hA hw1
    have ih := fun (m2 : OrderManager) =>
      deploySellLoop_oracle_sum accept statusOf symbol buyOrderId buyPrice
        totalAmount hA rest hrest (i + 1) m2 ⟨st.nCalls + 1⟩
    simp only [deploySellLoop, oracleGateway_placeLimitSell, List.map_cons,
      List.sum_cons, mul_add]
    cases hacc : accept st.nCalls with
    | true => exact add_le_add_left (ih _) _
    | false => exact le_trans (ih m) (le_add_of_nonneg_left hterm)

/-- The percentages actually used (the second components of the zip,
which truncates to the shorter list) total at most the sum of the whole
percentage list, when the percentages are nonnegative. -/
theorem zip_snd_sum_le : ∀ (l1 : List ℚ) (l2 : List ℚ), (∀ w ∈ l2, 0 ≤ w) →
    ((l1.zip l2).map Prod.snd).sum ≤ l2.sum
  | [], l2, h2 => by
    simpa using List.sum_nonneg (fun w hw => h2 w hw)
  | _ :: _, [], _ => by simp
  | a :: l1, b :: l2, h2 => by
    have hrest : ∀ w ∈ l2, 0 ≤ w := fun w hw => h2 w (List.mem_cons_of_mem b hw)
    simp only [List.zip_cons_cons, List.map_cons, List.sum_cons]
    exact add_le_add_left (zip_snd_sum_le l1 l2 hrest) b

/-- C2: for an entry recorded at price P with amount A whose simulated
order reports closed with fill price P and filled amount A (the
simulator fills completely at the limit price), deploy_sell_field places
one sell per (profit, weight) pair in ascending tier order, priced
P * (1 + profit/100) and sized A * weight; and against a venue that
rejects an arbitrary subset of the placements, whenever the weights are
nonnegative and total at most 1, the amounts of the successfully placed
sells never total more than A. -/
theorem deploy_sell_field_spec :
    (∀ (m : OrderManager) (s : SimState) (buyOrderId : Nat) (bo : MOrder)
      (so : SimOrder),
      alistGet m.activeOrders buyOrderId = some bo →
      alistGet s.orders buyOrderId = some so →
      so.status = "closed" → so.price = bo.price → so.filled = bo.amount →
      ((deploy_sell_field simGateway m s buyOrderId).1.map
          (fun resp => (resp.2.price, resp.2.amount)))
        = (m.profitTiers.zip m.tierPercentages).map
            (fun pw => (so.price * (1 + pw.1 / 100), so.filled * pw.2))) ∧
    (∀ (accept : Nat → Bool) (statusOf : Nat → Option StatusResp) (m : OrderManager)
      (st : OracleSt) (buyOrderId : Nat) (bo : MOrder),
      alistGet m.activeOrders buyOrderId = some bo → 0 ≤ bo.amount →
      (∀ w ∈ m.tierPercentages, 0 ≤ w) → m.tierPercentages.sum ≤ 1 →
      (((deploy_sell_field (oracleGateway accept statusOf) m st buyOrderId).1.map
          (fun resp => resp.amount)).sum) ≤ bo.amount) := by
  constructor
  · intro m s buyOrderId bo so hbo hso hclosed hp hf
    have hst : simGateway.getOrderStatus buyOrderId bo.symbol s
        = some { status := some "closed", filled := some so.filled } := by
      simp [simGateway, simGetOrderStatus, hso, toStatusResp, hclosed]
    rw [deploy_sell_field, hbo]
    simp only [hst]
    rw [hp, hf]
    simpa using deploySellLoop_sim_orders bo.symbol buyOrderId bo.price bo.amount
      (m.profitTiers.zip m.tierPercentages) 0 m s
  · intro accept statusOf m st buyOrderId bo hbo hA hw hsum
    rw [deploy_sell_field, hbo]
    cases hst : (oracleGateway accept statusOf).getOrderStatus buyOrderId bo.symbol st with
    | none =>
      simp only [hst]
      simpa using hA
    | some resp =>
      simp only [hst]
      by_cases hc : resp.status = some "closed"
      · rw [if_pos hc]
        have hzw : ∀ pw ∈ m.profitTiers.zip m.tierPercentages, 0 ≤ pw.2 := by
          intro pw hpw
          exact hw pw.2 (List.of_mem_zip hpw).2
        calc (((deploySellLoop (oracleGateway accept statusOf) bo.symbol buyOrderId
              bo.price bo.amount (m.profitTiers.zip m.tierPercentages) 0 m st).1.map
              (fun resp => resp.amount)).sum)
            ≤ bo.amount * ((m.profitTiers.zip m.tierPercentages).map Prod.snd).sum :=
              deploySellLoop_oracle_sum accept statusOf bo.symbol buyOrderId bo.price
                bo.amount hA (m.profitTiers.zip m.tierPercentages) hzw 0 m st
          _ ≤ bo.amount * m.tierPercentages.sum :=
              mul_le_mul_of_nonneg_left
                (zip_snd_sum_le m.profitTiers m.tierPercentages hw) hA
          _ ≤ bo.amount * 1 := mul_le_mul_of_nonneg_left hsum hA
          _ = bo.amount := mul_one bo.amount
      · rw [if_neg hc]
        simpa using hA

theorem deploy_sell_field_spec_witness :
    ((deploy_sell_field simGateway exManager exClosedSim 5).1.map
        (fun resp => (resp.2.price, resp.2.amount)))
      = [(105, 5), (110, 3), (115, 2)] ∧
    (((deploy_sell_field
        (oracleGateway (fun n => n % 2 == 0) (fun _ => some ⟨some "closed", some 10⟩))
        exManager ⟨0⟩ 5).1.map (fun resp => resp.amount)).sum) ≤ 10 := by
  have h := deploy_sell_field_spec
  constructor
  · have ha := h.1 exManager exClosedSim 5 exBuyEntry exClosedSimOrder rfl rfl rfl rfl rfl
    rw [ha]
    norm_num [exManager, emptyManager, exBuyEntry, exClosedSimOrder, exOpenSimOrder,
      List.zip_cons_cons]
  · have hb := h.2 (fun n => n % 2 == 0) (fun _ => some ⟨some "closed", some 10⟩)
      exManager ⟨0⟩ 5 exBuyEntry rfl (by norm_num [exBuyEntry])
      (by
        intro w hw
        simp [exManager, emptyManager] at hw
        rcases hw with rfl | rfl | rfl <;> norm_num)
      (by norm_num [exManager, emptyManager])
    exact hb
